import Mathlib

/-!
Shallow embedding of the task query and date resolution engine of the
`todo` repository (`src/todo`): the date utilities (`utils/helpers.py`,
`utils/date_utils.py`), the task model (`models/task.py`), the CLI
`list`/`search` commands (`commands/task.py`) and the agent-tool search
(`langchain_tools.py`).  Timestamps are modelled as a calendar record;
the SQLite backend stores datetimes as ISO strings, so chronological
order, ties and NULL handling are modelled explicitly below.
-/

namespace Todo

/-- A naive local timestamp, the shape `datetime.datetime` values take in
this code base (no timezone arithmetic is ever performed on them). -/
structure DateTime where
  year : Nat
  month : Nat
  day : Nat
  hour : Nat
  minute : Nat
  second : Nat
deriving DecidableEq, Repr

/-- Fields in the ranges `datetime` guarantees for constructed values. -/
def ValidDT (d : DateTime) : Prop :=
  1 ≤ d.month ∧ d.month ≤ 12 ∧ 1 ≤ d.day ∧ d.day ≤ 31 ∧
  d.hour ≤ 23 ∧ d.minute ≤ 59 ∧ d.second ≤ 59

instance (d : DateTime) : Decidable (ValidDT d) := by
  unfold ValidDT; infer_instance

/-- Mixed-radix key of the calendar date: on valid dates it orders
exactly like the `(year, month, day)` triple. -/
def dateKey (d : DateTime) : Nat :=
  (d.year * 13 + d.month) * 32 + d.day

/-- Mixed-radix key of the full timestamp: on valid timestamps it orders
exactly like chronological order (equivalently, like the ISO strings the
SQLite column stores). -/
def dtKey (d : DateTime) : Nat :=
  ((dateKey d * 24 + d.hour) * 60 + d.minute) * 60 + d.second

/-- The calendar-date part, as compared by `pendulum`'s `.date()`. -/
def dateTriple (d : DateTime) : Nat × Nat × Nat :=
  (d.year, d.month, d.day)

def isLeap (y : Nat) : Bool :=
  y % 4 == 0 && (y % 100 != 0 || y % 400 == 0)

def daysInMonth (y m : Nat) : Nat :=
  if m == 2 then (if isLeap y then 29 else 28)
  else if m == 4 || m == 6 || m == 9 || m == 11 then 30
  else 31

/-- Calendar successor day, keeping the time of day. -/
def nextDay (d : DateTime) : DateTime :=
  if d.day < daysInMonth d.year d.month then { d with day := d.day + 1 }
  else if d.month < 12 then { d with month := d.month + 1, day := 1 }
  else { d with year := d.year + 1, month := 1, day := 1 }

/-- `pendulum`'s `add(days=n)`: advance the calendar date, keeping the
time of day. -/
def addDays (d : DateTime) : Nat → DateTime
  | 0 => d
  | n + 1 => nextDay (addDays d n)

/-- `pendulum`'s `add(months=1)`: next month, clamping the day to the
length of the target month. -/
def addMonth (d : DateTime) : DateTime :=
  let y := if d.month == 12 then d.year + 1 else d.year
  let m := if d.month == 12 then 1 else d.month + 1
  { d with year := y, month := m, day := min d.day (daysInMonth y m) }

/-- ASCII lowercasing at the character-list level (a computable model of
Python's `str.lower()` on the ASCII vocabulary this code compares;
non-ASCII characters, e.g. the Chinese date words, are left unchanged by
both). -/
def lowerAscii (s : String) : String :=
  ⟨s.data.map Char.toLower⟩

/-! ### `datetime.strptime`, as used by `utils/helpers.py` -/

/-- Fields collected while running a `strptime` format, with CPython's
defaults (year 1900, January 1st, midnight). -/
structure ParsedFields where
  y : Nat := 1900
  m : Nat := 1
  d : Nat := 1
  hh : Nat := 0
  mi : Nat := 0
  ss : Nat := 0
deriving DecidableEq, Repr

/-- Longest leading run of ASCII digits and the remaining input. -/
def takeDigits : List Char → List Char × List Char
  | [] => ([], [])
  | c :: cs =>
    if c.isDigit then
      let p := takeDigits cs
      (c :: p.1, p.2)
    else ([], c :: cs)

def digitsToNat (ds : List Char) : Nat :=
  ds.foldl (fun acc c => acc * 10 + (c.toNat - 48)) 0

/-- Run a `strptime` format string over the input.  Num directives match
as CPython's compiled regexes do against the separator-delimited formats
this repository uses: `%Y` takes exactly four digits, the two-digit
directives take one or two digits within their range.  Trailing
unconverted input is an error. -/
def runFmt : List Char → List Char → ParsedFields → Option ParsedFields
  | [], [], acc => some acc
  | [], _ :: _, _ => none
  | '%' :: dir :: fmt, inp, acc =>
    let p := takeDigits inp
    let v := digitsToNat p.1
    let len := p.1.length
    if len == 0 then none
    else
      match dir with
      | 'Y' => if len == 4 then runFmt fmt p.2 { acc with y := v } else none
      | 'm' => if len ≤ 2 && 1 ≤ v && v ≤ 12 then runFmt fmt p.2 { acc with m := v } else none
      | 'd' => if len ≤ 2 && 1 ≤ v && v ≤ 31 then runFmt fmt p.2 { acc with d := v } else none
      | 'H' => if len ≤ 2 && v ≤ 23 then runFmt fmt p.2 { acc with hh := v } else none
      | 'M' => if len ≤ 2 && v ≤ 59 then runFmt fmt p.2 { acc with mi := v } else none
      | 'S' => if len ≤ 2 && v ≤ 59 then runFmt fmt p.2 { acc with ss := v } else none
      | _ => none
  | c :: fmt, i :: inp, acc => if c == i then runFmt fmt inp acc else none
  | _ :: _, [], _ => none

/-- `datetime.strptime(date_str, fmt)` for the formats this repository
passes; `none` models the `ValueError` raised on mismatch.  The final
check is the `datetime` constructor's day-of-month validation. -/
def strptime (s fmt : String) : Option DateTime :=
  match runFmt fmt.data s.data {} with
  | none => none
  | some f =>
    if 1 ≤ f.y ∧ f.d ≤ daysInMonth f.y f.m then
      some ⟨f.y, f.m, f.d, f.hh, f.mi, f.ss⟩
    else none

/-- The format list of `todo.utils.helpers.parse_date`, in source order. -/
def dateFormats : List String :=
  ["%Y-%m-%d", "%Y-%m-%d %H:%M", "%Y-%m-%d %H:%M:%S", "%m-%d", "%m/%d", "%Y/%m/%d"]

/-- The `for fmt in formats: try ... except: continue` loop of
`parse_date`: first successful format wins. -/
def tryFormats (s : String) : List String → Option DateTime
  | [] => none
  | f :: fs =>
    match strptime s f with
    | some d => some d
    | none => tryFormats s fs

/-- `todo.utils.helpers.parse_date`.  Empty input returns `None`; a
recognized absolute format returns its timestamp; otherwise the function
raises `ValueError("Invalid date format: " + date_str)`, modelled as
`Except.error` carrying that message. -/
def parse_date (s : String) : Except String (Option DateTime) :=
  if s == "" then .ok none
  else
    match tryFormats s dateFormats with
    | some d => .ok (some d)
    | none => .error ("Invalid date format: " ++ s)

/-! ### `todo.utils.date_utils` -/

/-- Models the external `pendulum.parse(date_str, strict=False)` used as
the first stage of `parse_datetime`: it parses numeric absolute
(ISO-8601-style) formats and fails on natural-language words, which do
not start with a digit. -/
def pendulumParse (s : String) : Option DateTime :=
  tryFormats s ["%Y-%m-%d", "%Y-%m-%dT%H:%M:%S", "%Y-%m-%d %H:%M", "%Y-%m-%d %H:%M:%S"]

/-- `todo.utils.date_utils.parse_datetime`: tries `pendulum.parse`
first, then the relative vocabulary by exact case-insensitive match,
and returns `None` when both fail.  `pendulum.now()` is the `now`
parameter. -/
def parse_datetime (s : String) (now : DateTime) : Option DateTime :=
  if s == "" then none
  else
    match pendulumParse s with
    | some d => some d
    | none =>
      let l := lowerAscii s
      if l == "today" || l == "今天" then some now
      else if l == "tomorrow" || l == "明天" then some (addDays now 1)
      else if l == "next week" || l == "下周" then some (addDays now 7)
      else if l == "next month" || l == "下月" then some (addMonth now)
      else none

/-- The classification returned by `get_due_status`, one constructor per
returned string: `已过期`, `今天到期`, `明天到期`, the
`diff_for_humans()` relative text, and the empty string for a missing
due date. -/
inductive DueStatus where
  | overdue
  | dueToday
  | dueTomorrow
  | upcoming
  | noDue
deriving DecidableEq, Repr

/-- `todo.utils.date_utils.get_due_status` with `pendulum.now()` as the
`now` parameter: a full-timestamp overdue test, then date-only equality
with today and with tomorrow. -/
def get_due_status (due : Option DateTime) (now : DateTime) : DueStatus :=
  match due with
  | none => .noDue
  | some d =>
    if dtKey d < dtKey now then .overdue
    else if dateTriple d = dateTriple now then .dueToday
    else if dateTriple d = dateTriple (addDays now 1) then .dueTomorrow
    else .upcoming

/-- `todo.utils.date_utils.is_overdue` (no completion parameter). -/
def du_is_overdue (due : Option DateTime) (now : DateTime) : Bool :=
  match due with
  | none => false
  | some d => dtKey d < dtKey now

/-! ### Enums and string parsing (`models/task.py`, `utils/helpers.py`) -/

inductive TaskStatus where
  | pending
  | inProgress
  | completed
  | cancelled
deriving DecidableEq, Repr

inductive TaskPriority where
  | low
  | medium
  | high
  | urgent
deriving DecidableEq, Repr

/-- The dictionary of `todo.utils.helpers.parse_status`. -/
def statusMap : List (String × TaskStatus) :=
  [("pending", .pending), ("in_progress", .inProgress),
   ("completed", .completed), ("cancelled", .cancelled),
   ("p", .pending), ("i", .inProgress), ("c", .completed), ("x", .cancelled)]

/-- `todo.utils.helpers.parse_status`: dictionary lookup on the
lowercased input with `TaskStatus.PENDING` as the `.get` default. -/
def parse_status (s : String) : TaskStatus :=
  ((statusMap.lookup (lowerAscii s)).getD .pending)

/-- The dictionary of `todo.utils.helpers.parse_priority`. -/
def priorityMap : List (String × TaskPriority) :=
  [("low", .low), ("medium", .medium), ("high", .high), ("urgent", .urgent),
   ("l", .low), ("m", .medium), ("h", .high), ("u", .urgent)]

/-- `todo.utils.helpers.parse_priority`: dictionary lookup on the
lowercased input with `TaskPriority.MEDIUM` as the `.get` default. -/
def parse_priority (s : String) : TaskPriority :=
  ((priorityMap.lookup (lowerAscii s)).getD .medium)

/-! ### Task model (`models/task.py`)

Categories and tags are referenced by their unique names, which is what
every filter in `commands/task.py` compares (`Category.name == category`,
`Tag.name == tag`); `category_id IS NULL` is `categoryName = none`. -/

structure Task where
  id : Nat
  title : String
  description : Option String
  status : TaskStatus
  priority : TaskPriority
  createdAt : DateTime
  updatedAt : Option DateTime
  dueDate : Option DateTime
  completedAt : Option DateTime
  categoryName : Option String
  tags : List String
deriving DecidableEq, Repr

/-- `Task.is_completed` (`models/task.py`). -/
def Task.is_completed (t : Task) : Bool :=
  t.status == .completed

/-- `Task.is_overdue` (`models/task.py`), with the `func.now()` the
property compares against modelled as the `now` parameter. -/
def Task.is_overdue (t : Task) (now : DateTime) : Bool :=
  match t.dueDate with
  | none => false
  | some d => if t.is_completed then false else dtKey d < dtKey now

/-! ### Sorting (`search` in `commands/task.py`)

The SQL layer executes `ORDER BY col DESC|ASC LIMIT n` on SQLite.
SQLite treats NULL as smaller than every value, and the order of rows
that compare equal on the sort column is left unspecified (no tie-break
column is emitted).  The model below determinizes that unspecified tie
order as a stable sort over the list, so only tie-insensitive
properties of the result are properties of the program.  Datetime
columns hold ISO strings, ordered chronologically; enum columns hold
the Python enum member names, ordered as strings. -/

inductive SortKey where
  | created
  | updated
  | due
  | priority
  | title
deriving DecidableEq, Repr

/-- The `sort_options` dictionary of `search_tasks`; `sortKeyOf` is its
`.get(sort_by, Task.created_at)` with the `created_at` default. -/
def sortOptions : List (String × SortKey) :=
  [("created", .created), ("updated", .updated), ("due", .due),
   ("priority", .priority), ("title", .title)]

def sortKeyOf (s : String) : SortKey :=
  (sortOptions.lookup s).getD .created

/-- The name the SQLAlchemy `Enum` column stores for each priority. -/
def priorityName : TaskPriority → String
  | .low => "LOW"
  | .medium => "MEDIUM"
  | .high => "HIGH"
  | .urgent => "URGENT"

/-- SQLite NULL-smallest encoding of a nullable datetime column. -/
def optKey : Option DateTime → Nat
  | none => 0
  | some d => dtKey d + 1

/-- Ascending comparison on the value of one sort column. -/
def keyLe (k : SortKey) (a b : Task) : Bool :=
  match k with
  | .created => decide (dtKey a.createdAt ≤ dtKey b.createdAt)
  | .updated => decide (optKey a.updatedAt ≤ optKey b.updatedAt)
  | .due => decide (optKey a.dueDate ≤ optKey b.dueDate)
  | .priority => decide (priorityName a.priority ≤ priorityName b.priority)
  | .title => decide (a.title ≤ b.title)

/-- The row order `ORDER BY` emits: `reverse` asks for `ASC`, the
default is `DESC` (`sort_column.desc()` unless `--reverse`). -/
def rowLe (k : SortKey) (rev : Bool) (a b : Task) : Bool :=
  if rev then keyLe k a b else keyLe k b a

def orderRel (k : SortKey) (rev : Bool) : Task → Task → Prop :=
  fun a b => rowLe k rev a b = true

instance (k : SortKey) (rev : Bool) : DecidableRel (orderRel k rev) :=
  fun _ _ => instDecidableEqBool _ _

/-! ### FilterSpec and the `search` command (`commands/task.py`) -/

/-- The option set of the `search` CLI command.  Date bounds are held as
already-parsed timestamps: the command parses the raw strings with
`parse_date` (modelled separately above) and exits on a parse error
before any filtering happens. -/
structure SearchSpec where
  query : Option String := none
  status : Option String := none
  category : Option String := none
  tag : Option String := none
  priority : Option String := none
  dueBefore : Option DateTime := none
  dueAfter : Option DateTime := none
  createdBefore : Option DateTime := none
  createdAfter : Option DateTime := none
  overdue : Bool := false
  noCategory : Bool := false
  noTags : Bool := false
  limit : Nat := 50
  sortBy : String := "created"
  reverse : Bool := false
deriving Repr

/-- A SQL `LIKE '%q%'`-class match: SQLite compares LIKE patterns
ASCII-case-insensitively, and `ilike` lowercases both sides, so both
operators used in this repository amount to an ASCII-case-insensitive
substring test.  A NULL column never matches (handled at the caller). -/
def subMatch (q : List Char) : List Char → Bool
  | [] => q.isPrefixOf []
  | c :: t => q.isPrefixOf (c :: t) || subMatch q t

def likeMatch (col q : String) : Bool :=
  subMatch (lowerAscii q).data (lowerAscii col).data

/-- The conjunction of filters `search_tasks` stacks onto the query, in
source order: free text over title or description, status, category
(`elif no_category`), tag (`elif no_tags`), priority, inclusive due-date
and created-date bounds (NULL `due_date` matches no bound), and the
overdue filter (`due_date < now AND status != COMPLETED`). -/
def searchFilter (sp : SearchSpec) (now : DateTime) (t : Task) : Bool :=
  (match sp.query with
   | some q =>
     likeMatch t.title q ||
       (match t.description with
        | some dsc => likeMatch dsc q
        | none => false)
   | none => true) &&
  (match sp.status with
   | some s => t.status == parse_status s
   | none => true) &&
  (match sp.category with
   | some c => t.categoryName == some c
   | none => if sp.noCategory then t.categoryName == none else true) &&
  (match sp.tag with
   | some g => t.tags.contains g
   | none => if sp.noTags then t.tags.isEmpty else true) &&
  (match sp.priority with
   | some p => t.priority == parse_priority p
   | none => true) &&
  (match sp.dueBefore with
   | some b => match t.dueDate with
     | some d => decide (dtKey d ≤ dtKey b)
     | none => false
   | none => true) &&
  (match sp.dueAfter with
   | some a => match t.dueDate with
     | some d => decide (dtKey a ≤ dtKey d)
     | none => false
   | none => true) &&
  (match sp.createdBefore with
   | some b => decide (dtKey t.createdAt ≤ dtKey b)
   | none => true) &&
  (match sp.createdAfter with
   | some a => decide (dtKey a ≤ dtKey t.createdAt)
   | none => true) &&
  (if sp.overdue then
     (match t.dueDate with
      | some d => decide (dtKey d < dtKey now)
      | none => false) && !(t.status == .completed)
   else true)

/-- The `search` command of `commands/task.py`: filter, `ORDER BY` the
selected column, then `LIMIT`.  The sort is modelled as a stable
insertion sort; the relative order it gives rows with equal sort keys
is a determinization of what the SQL leaves unspecified, and no theorem
below relies on it. -/
def search_tasks (tasks : List Task) (sp : SearchSpec) (now : DateTime) : List Task :=
  (List.insertionSort (orderRel (sortKeyOf sp.sortBy) sp.reverse)
      (tasks.filter (searchFilter sp now))).take sp.limit

/-! ### The `list` command (`commands/task.py`) -/

/-- The option set of the `list` CLI command. -/
structure ListSpec where
  status : Option String := none
  category : Option String := none
  tag : Option String := none
  priority : Option String := none
  limit : Nat := 50
  allTasks : Bool := false
deriving Repr

/-- The filters of `list_tasks`, in source order: an explicit status
filter, else (unless `--all`) the default restriction to pending and
in-progress; then category, tag and priority. -/
def listFilter (sp : ListSpec) (t : Task) : Bool :=
  (match sp.status with
   | some s => t.status == parse_status s
   | none =>
     if sp.allTasks then true
     else t.status == .pending || t.status == .inProgress) &&
  (match sp.category with
   | some c => t.categoryName == some c
   | none => true) &&
  (match sp.tag with
   | some g => t.tags.contains g
   | none => true) &&
  (match sp.priority with
   | some p => t.priority == parse_priority p
   | none => true)

/-- The `list` command: filter, `ORDER BY created_at DESC`, `LIMIT`. -/
def list_tasks (tasks : List Task) (sp : ListSpec) : List Task :=
  (List.insertionSort (orderRel .created false)
      (tasks.filter (listFilter sp))).take sp.limit

/-! ### The agent-tool search (`langchain_tools.py`) -/

/-- The `search_tasks` tool of `langchain_tools.py`.  It accepts the
full filter parameter list but its body applies only the free-text
filter (`Task.title.contains / Task.description.contains`) before
`ORDER BY created_at DESC LIMIT limit`; every other parameter is
accepted and ignored (the body's comment defers them to future work). -/
def lc_search_tasks (tasks : List Task) (q : Option String)
    (_status _category _tag _priority : Option String)
    (_dueBefore _dueAfter _createdBefore _createdAfter : Option DateTime)
    (_overdue : Bool) (limit : Nat) : List Task :=
  (List.insertionSort (orderRel .created false)
      (tasks.filter fun t =>
        match q with
        | some qs =>
          likeMatch t.title qs ||
            (match t.description with
             | some dsc => likeMatch dsc qs
             | none => false)
        | none => true)).take limit

/-! ### The mutation path for `completed_at` (`commands/task.py`,
`models/task.py`)

The status and completion timestamp of a task, projected from the full
record: these are the only fields the invariant of claim C9 mentions,
and the only ones the four mutation operations read or write. -/

structure TaskState where
  status : TaskStatus
  completedAt : Option Nat
deriving DecidableEq, Repr

/-- The status branch of the `update` command: set the parsed status,
then backfill `completed_at` only when the new status is completed and
no completion timestamp is present. -/
def updateStatusOp (s : TaskState) (raw : String) (t : Nat) : TaskState :=
  if parse_status raw = .completed ∧ s.completedAt = none then
    { status := parse_status raw, completedAt := some t }
  else { s with status := parse_status raw }

/-- The `complete` command: an already-completed task is returned
unchanged, otherwise status and `completed_at` are both set. -/
def completeOp (s : TaskState) (t : Nat) : TaskState :=
  if s.status = .completed then s
  else { status := .completed, completedAt := some t }

/-- `Task.mark_completed`. -/
def markCompletedOp (_s : TaskState) (t : Nat) : TaskState :=
  { status := .completed, completedAt := some t }

/-- `Task.mark_cancelled`: sets the status only. -/
def markCancelledOp (s : TaskState) : TaskState :=
  { s with status := .cancelled }

/-- States reachable from creation through the normal mutation path. -/
inductive Reachable : TaskState → Prop where
  | create : Reachable ⟨.pending, none⟩
  | update (s : TaskState) (raw : String) (t : Nat) :
      Reachable s → Reachable (updateStatusOp s raw t)
  | complete (s : TaskState) (t : Nat) :
      Reachable s → Reachable (completeOp s t)
  | markCompleted (s : TaskState) (t : Nat) :
      Reachable s → Reachable (markCompletedOp s t)
  | cancel (s : TaskState) :
      Reachable s → Reachable (markCancelledOp s)


/-! ### Concrete fixtures used by witnesses and counterexamples -/

/-- A fixed reference time used where a concrete `now` is needed. -/
def dt0 : DateTime := ⟨2024, 1, 10, 12, 0, 0⟩

/-- The spec scenario's task 1: pending, created 2024-01-01. -/
def c1TaskOne : Task :=
  { id := 1, title := "write report", description := none,
    status := .pending, priority := .medium,
    createdAt := ⟨2024, 1, 1, 0, 0, 0⟩, updatedAt := none,
    dueDate := none, completedAt := none, categoryName := none, tags := [] }

/-- The spec scenario's task 2: completed, created 2024-01-02. -/
def c1TaskTwo : Task :=
  { id := 2, title := "old chore", description := none,
    status := .completed, priority := .medium,
    createdAt := ⟨2024, 1, 2, 0, 0, 0⟩, updatedAt := none,
    dueDate := none, completedAt := some ⟨2024, 1, 3, 0, 0, 0⟩,
    categoryName := none, tags := [] }

/-- A task carrying the category "Work". -/
def c2Work : Task :=
  { id := 1, title := "meeting", description := none,
    status := .pending, priority := .medium,
    createdAt := ⟨2024, 1, 2, 0, 0, 0⟩, updatedAt := none,
    dueDate := none, completedAt := none,
    categoryName := some "Work", tags := [] }

/-- A task with no category. -/
def c2Uncat : Task :=
  { id := 2, title := "errand", description := none,
    status := .pending, priority := .medium,
    createdAt := ⟨2024, 1, 1, 0, 0, 0⟩, updatedAt := none,
    dueDate := none, completedAt := none, categoryName := none, tags := [] }

/-- A task with a due date, for the sort counterexample. -/
def c8WithDue : Task :=
  { id := 1, title := "due soon", description := none,
    status := .pending, priority := .medium,
    createdAt := ⟨2024, 1, 1, 0, 0, 0⟩, updatedAt := none,
    dueDate := some ⟨2024, 1, 5, 0, 0, 0⟩, completedAt := none,
    categoryName := none, tags := [] }

/-- A task with NULL due date, for the sort counterexample. -/
def c8NoDue : Task :=
  { id := 2, title := "someday", description := none,
    status := .pending, priority := .medium,
    createdAt := ⟨2024, 1, 2, 0, 0, 0⟩, updatedAt := none,
    dueDate := none, completedAt := none, categoryName := none, tags := [] }

/-- A pending task, for the agent/CLI comparison. -/
def c10Pending : Task :=
  { id := 1, title := "alpha", description := none,
    status := .pending, priority := .medium,
    createdAt := ⟨2024, 1, 1, 0, 0, 0⟩, updatedAt := none,
    dueDate := none, completedAt := none, categoryName := none, tags := [] }

/-- A completed task, for the agent/CLI comparison. -/
def c10Completed : Task :=
  { id := 2, title := "beta", description := none,
    status := .completed, priority := .medium,
    createdAt := ⟨2024, 1, 2, 0, 0, 0⟩, updatedAt := none,
    dueDate := none, completedAt := some ⟨2024, 1, 3, 0, 0, 0⟩,
    categoryName := none, tags := [] }

/-! ### Sort-order infrastructure

Lemmas relating the modelled `ORDER BY` output to the emitted order
relation. -/

theorem rowLe_total (k : SortKey) (rev : Bool) (a b : Task) :
    orderRel k rev a b ∨ orderRel k rev b a := by
  unfold orderRel rowLe
  rcases rev <;> rcases k <;> simp [keyLe] <;> exact le_total _ _

theorem rowLe_trans (k : SortKey) (rev : Bool) (a b c : Task) :
    orderRel k rev a b → orderRel k rev b c → orderRel k rev a c := by
  unfold orderRel rowLe
  rcases rev <;> rcases k <;> simp [keyLe] <;>
    (intro h1 h2; first | exact le_trans h1 h2 | exact le_trans h2 h1)

theorem sorted_search_order (k : SortKey) (rev : Bool) (l : List Task) :
    (List.insertionSort (orderRel k rev) l).Pairwise (orderRel k rev) := by
  haveI : IsTotal Task (orderRel k rev) := ⟨rowLe_total k rev⟩
  haveI : IsTrans Task (orderRel k rev) := ⟨rowLe_trans k rev⟩
  exact List.sorted_insertionSort (orderRel k rev) l

theorem optKey_eq_zero (o : Option DateTime) : optKey o = 0 ↔ o = none := by
  cases o <;> simp [optKey]


/-! ### Membership and lookup helpers -/

theorem mem_search_tasks {tasks : List Task} {sp : SearchSpec} {now : DateTime} {t : Task} :
    t ∈ search_tasks tasks sp now → t ∈ tasks ∧ searchFilter sp now t = true := by
  intro h
  unfold search_tasks at h
  exact List.mem_filter.mp ((List.mem_insertionSort _).mp (List.mem_of_mem_take h))

theorem mem_list_tasks {tasks : List Task} {sp : ListSpec} {t : Task} :
    t ∈ list_tasks tasks sp → t ∈ tasks ∧ listFilter sp t = true := by
  intro h
  unfold list_tasks at h
  exact List.mem_filter.mp ((List.mem_insertionSort _).mp (List.mem_of_mem_take h))

theorem lookup_eq_none_of_forall {β : Type} (a : String) :
    ∀ l : List (String × β), (∀ p ∈ l, p.1 ≠ a) → l.lookup a = none := by
  intro l
  induction l with
  | nil => intro _; rfl
  | cons p ps ih =>
    intro h
    obtain ⟨k, v⟩ := p
    have hk : (a == k) = false :=
      beq_eq_false_iff_ne.mpr fun e => (h (k, v) (List.mem_cons_self _ _)) e.symm
    rw [List.lookup, hk]
    exact ih fun q hq => h q (List.mem_cons_of_mem _ hq)

/-! ### Calendar arithmetic lemmas -/

theorem dateKey_nextDay (d : DateTime) (h : ValidDT d) :
    dateKey d < dateKey (nextDay d) := by
  obtain ⟨hm1, hm2, hd1, hd2, _⟩ := h
  unfold nextDay
  by_cases h1 : d.day < daysInMonth d.year d.month
  · rw [if_pos h1]
    unfold dateKey
    dsimp only
    omega
  · rw [if_neg h1]
    by_cases h2 : d.month < 12
    · rw [if_pos h2]
      unfold dateKey
      dsimp only
      omega
    · rw [if_neg h2]
      unfold dateKey
      dsimp only
      omega

theorem dtKey_lt_of_dateKey_lt {a b : DateTime} (hb : ValidDT b)
    (h : dateKey b < dateKey a) : dtKey b < dtKey a := by
  obtain ⟨_, _, _, _, hh, hmi, hs⟩ := hb
  unfold dtKey
  omega

theorem dateKey_eq_of_dateTriple_eq {a b : DateTime}
    (h : dateTriple a = dateTriple b) : dateKey a = dateKey b := by
  unfold dateTriple at h
  obtain ⟨h1, h2, h3⟩ : a.year = b.year ∧ a.month = b.month ∧ a.day = b.day := by
    simpa using h
  unfold dateKey
  rw [h1, h2, h3]

theorem addDays_one (d : DateTime) : addDays d 1 = nextDay d := rfl

theorem nextDay_timeOfDay (d : DateTime) :
    (nextDay d).hour = d.hour ∧ (nextDay d).minute = d.minute ∧
      (nextDay d).second = d.second := by
  unfold nextDay
  split
  · exact ⟨rfl, rfl, rfl⟩
  · split
    · exact ⟨rfl, rfl, rfl⟩
    · exact ⟨rfl, rfl, rfl⟩

/-! ### First-match-wins characterization of the format loop -/

theorem tryFormats_eq_none_iff (s : String) (fs : List String) :
    tryFormats s fs = none ↔ ∀ f ∈ fs, strptime s f = none := by
  induction fs with
  | nil => simp [tryFormats]
  | cons f fs ih =>
    rw [tryFormats]
    cases hf : strptime s f with
    | some d => simp [hf]
    | none => simp [hf, ih]

theorem tryFormats_eq_some_iff (s : String) (d : DateTime) (fs : List String) :
    tryFormats s fs = some d ↔
      ∃ pre f post, fs = pre ++ f :: post ∧ strptime s f = some d ∧
        ∀ g ∈ pre, strptime s g = none := by
  induction fs with
  | nil =>
    simp only [tryFormats]
    constructor
    · intro h; exact absurd h (by simp)
    · rintro ⟨pre, f, post, h, _, _⟩
      exact absurd h (by simp)
  | cons f fs ih =>
    rw [tryFormats]
    cases hf : strptime s f with
    | some e =>
      constructor
      · intro h
        obtain rfl : e = d := by simpa using h
        exact ⟨[], f, fs, rfl, hf, by simp⟩
      · rintro ⟨pre, g, post, hsplit, hg, hpre⟩
        cases pre with
        | nil =>
          rw [List.nil_append] at hsplit
          injection hsplit with h1 h2
          rw [← h1, hf] at hg
          simpa using hg
        | cons p ps =>
          rw [List.cons_append] at hsplit
          injection hsplit with h1 h2
          have hp := hpre p (List.mem_cons_self _ _)
          rw [← h1, hf] at hp
          exact absurd hp (by simp)
    | none =>
      rw [ih]
      constructor
      · rintro ⟨pre, g, post, hsplit, hg, hpre⟩
        refine ⟨f :: pre, g, post, by rw [hsplit, List.cons_append], hg, ?_⟩
        intro x hx
        rcases List.mem_cons.mp hx with rfl | hx
        · exact hf
        · exact hpre x hx
      · rintro ⟨pre, g, post, hsplit, hg, hpre⟩
        cases pre with
        | nil =>
          rw [List.nil_append] at hsplit
          injection hsplit with h1 h2
          rw [← h1, hf] at hg
          exact absurd hg (by simp)
        | cons p ps =>
          rw [List.cons_append] at hsplit
          injection hsplit with h1 h2
          exact ⟨ps, g, post, h2, hg, fun x hx => hpre x (List.mem_cons_of_mem _ hx)⟩


/-! ### Claim theorems -/

/-- C3 (counterexample): an unrecognized status or priority string is
indistinguishable from the default-mapped valid strings: `parse_status`
silently yields pending and `parse_priority` silently yields medium, so
no typed InvalidFilterValue error is ever reported. -/
theorem C3_counterexample :
    parse_status "xyzzy" = TaskStatus.pending ∧
    parse_priority "xyzzy" = TaskPriority.medium ∧
    parse_status "pending" = TaskStatus.pending ∧
    parse_priority "medium" = TaskPriority.medium :=
  ⟨rfl, rfl, rfl, rfl⟩

/-- C3 (amended): every status or priority filter string outside the
recognized vocabulary is silently coerced to the default enum value
(pending for status, medium for priority); no typed error is reported. -/
theorem C3_amended (s : String)
    (h1 : ∀ p ∈ statusMap, p.1 ≠ lowerAscii s)
    (h2 : ∀ p ∈ priorityMap, p.1 ≠ lowerAscii s) :
    parse_status s = .pending ∧ parse_priority s = .medium := by
  unfold parse_status parse_priority
  rw [lookup_eq_none_of_forall (lowerAscii s) statusMap h1,
    lookup_eq_none_of_forall (lowerAscii s) priorityMap h2]
  exact ⟨rfl, rfl⟩

/-- C3 (witness): the amended claim at the unknown string "urgnt". -/
theorem C3_witness :
    parse_status "urgnt" = .pending ∧ parse_priority "urgnt" = .medium :=
  C3_amended "urgnt" (by decide) (by decide)

/-- C4: `Task.is_overdue` is false whenever the due date is null or the
task is completed, however far the due date precedes now; otherwise it
is true exactly when the due timestamp is before now. -/
theorem C4_is_overdue_classification (t : Task) (now : DateTime) :
    ((t.dueDate = none ∨ t.status = .completed) → t.is_overdue now = false) ∧
    (∀ d, t.dueDate = some d → t.status ≠ .completed →
      (t.is_overdue now = true ↔ dtKey d < dtKey now)) := by
  constructor
  · rintro (h | h)
    · simp [Task.is_overdue, h]
    · cases hd : t.dueDate with
      | none => simp [Task.is_overdue, hd]
      | some d => simp [Task.is_overdue, hd, Task.is_completed, h]
  · intro d hd hs
    simp [Task.is_overdue, hd, Task.is_completed, hs]

/-- C4 (witness): the spec scenario: due 2024-01-01, now 2024-01-02 is
overdue when not completed, and never overdue when completed. -/
theorem C4_witness :
    (Task.mk 1 "w" none .pending .medium ⟨2024, 1, 1, 0, 0, 0⟩ none
        (some ⟨2024, 1, 1, 0, 0, 0⟩) none none []).is_overdue
      ⟨2024, 1, 2, 0, 0, 0⟩ = true ∧
    (Task.mk 1 "w" none .completed .medium ⟨2024, 1, 1, 0, 0, 0⟩ none
        (some ⟨2024, 1, 1, 0, 0, 0⟩) none none []).is_overdue
      ⟨2024, 1, 2, 0, 0, 0⟩ = false :=
  ⟨((C4_is_overdue_classification _ _).2 _ rfl (by decide)).mpr (by decide),
    (C4_is_overdue_classification _ _).1 (Or.inr rfl)⟩

/-- C5: `get_due_status` classifies overdue by the full timestamp
comparison, while due-today and due-tomorrow are decided by date-only
comparison: a due timestamp on today's date at or after now is DueToday
(never Overdue), and a due timestamp on tomorrow's date is DueTomorrow. -/
theorem C5_due_status_classification (due now : DateTime) (hn : ValidDT now) :
    (get_due_status (some due) now = .overdue ↔ dtKey due < dtKey now) ∧
    (dateTriple due = dateTriple now → dtKey now ≤ dtKey due →
      get_due_status (some due) now = .dueToday) ∧
    (dateTriple due = dateTriple (addDays now 1) →
      get_due_status (some due) now = .dueTomorrow) := by
  refine ⟨?_, ?_, ?_⟩
  · unfold get_due_status
    dsimp only
    by_cases h : dtKey due < dtKey now
    · simp [h]
    · rw [if_neg h, iff_false_intro h]
      split <;> simp
      split <;> simp
  · intro htrip hle
    unfold get_due_status
    dsimp only
    rw [if_neg (Nat.not_lt.mpr hle), if_pos htrip]
  · intro htrip
    have hkey : dateKey now < dateKey due := by
      have h1 := dateKey_nextDay now hn
      have h2 : dateKey due = dateKey (nextDay now) := by
        rw [← addDays_one]
        exact dateKey_eq_of_dateTriple_eq htrip
      omega
    have hlt : dtKey now < dtKey due := dtKey_lt_of_dateKey_lt hn hkey
    have hne : dateTriple due ≠ dateTriple now := by
      intro he
      have := dateKey_eq_of_dateTriple_eq he
      omega
    unfold get_due_status
    dsimp only
    rw [if_neg (Nat.not_lt.mpr (Nat.le_of_lt hlt)), if_neg hne, if_pos htrip]

/-- C5 (witness): at now = 2024-01-10 12:00, a due at 23:00 the same day
is DueToday and a due at 00:30 on 2024-01-11 is DueTomorrow. -/
theorem C5_witness :
    get_due_status (some ⟨2024, 1, 10, 23, 0, 0⟩) dt0 = .dueToday ∧
    get_due_status (some ⟨2024, 1, 11, 0, 30, 0⟩) dt0 = .dueTomorrow :=
  ⟨(C5_due_status_classification ⟨2024, 1, 10, 23, 0, 0⟩ dt0 (by decide)).2.1
      (by decide) (by decide),
    (C5_due_status_classification ⟨2024, 1, 11, 0, 30, 0⟩ dt0 (by decide)).2.2
      (by decide)⟩

/-- C6 (counterexample): the claim's single resolution pipeline does not
exist: the command-path resolver `parse_date` reports the error for
"tomorrow" without ever consulting the relative vocabulary, although
"tomorrow" is a recognized relative expression (resolved, in the
separate `parse_datetime`, to now plus one day). -/
theorem C6_counterexample :
    parse_date "tomorrow" = .error "Invalid date format: tomorrow" ∧
    parse_datetime "tomorrow" dt0 = some (addDays dt0 1) :=
  ⟨rfl, rfl⟩

/-- C6 (amended): for nonempty input, `parse_date` returns a timestamp
exactly when some format in the source-ordered list succeeds and every
earlier format fails (first match wins), and otherwise reports the
typed error carrying the original input; no relative vocabulary is
consulted and no fallback timestamp is synthesized. -/
theorem C6_amended (s : String) (hs : s ≠ "") :
    (∀ d, parse_date s = .ok (some d) ↔
      ∃ pre f post, dateFormats = pre ++ f :: post ∧ strptime s f = some d ∧
        ∀ g ∈ pre, strptime s g = none) ∧
    (parse_date s = .error ("Invalid date format: " ++ s) ↔
      ∀ f ∈ dateFormats, strptime s f = none) := by
  have hbeq : (s == "") = false := beq_eq_false_iff_ne.mpr hs
  constructor
  · intro d
    rw [← tryFormats_eq_some_iff]
    unfold parse_date
    rw [hbeq]
    simp only [Bool.false_eq_true, if_false]
    cases h : tryFormats s dateFormats with
    | some e => simp [h]
    | none => simp [h]
  · rw [← tryFormats_eq_none_iff]
    unfold parse_date
    rw [hbeq]
    simp only [Bool.false_eq_true, if_false]
    cases h : tryFormats s dateFormats with
    | some e => simp [h]
    | none => simp [h]

/-- C6 (witness): the amended claim at the input "2024-01-05". -/
theorem C6_witness :
    (∀ d, parse_date "2024-01-05" = .ok (some d) ↔
      ∃ pre f post, dateFormats = pre ++ f :: post ∧
        strptime "2024-01-05" f = some d ∧
        ∀ g ∈ pre, strptime "2024-01-05" g = none) ∧
    (parse_date "2024-01-05" = .error "Invalid date format: 2024-01-05" ↔
      ∀ f ∈ dateFormats, strptime "2024-01-05" f = none) :=
  C6_amended "2024-01-05" (by decide)

/-- C7: resolution of a recognized relative expression is a
deterministic pure function of the expression and now; "tomorrow"
resolves to exactly now plus one day with the time of day unchanged,
and the spec scenario 2024-01-01T10:00:00 resolves to
2024-01-02T10:00:00. -/
theorem C7_resolve_tomorrow :
    (∀ (e : String) (n1 n2 : DateTime), n1 = n2 →
      parse_datetime e n1 = parse_datetime e n2) ∧
    (∀ now : DateTime, parse_datetime "tomorrow" now = some (addDays now 1)) ∧
    (∀ now : DateTime, (addDays now 1).hour = now.hour ∧
      (addDays now 1).minute = now.minute ∧ (addDays now 1).second = now.second) ∧
    parse_datetime "tomorrow" ⟨2024, 1, 1, 10, 0, 0⟩ = some ⟨2024, 1, 2, 10, 0, 0⟩ := by
  refine ⟨fun e n1 n2 h => by rw [h], fun now => rfl, fun now => ?_, rfl⟩
  rw [addDays_one]
  exact nextDay_timeOfDay now

/-- C7 (witness): the purity clause applied at a concrete call. -/
theorem C7_witness :
    parse_datetime "next week" dt0 = parse_datetime "next week" dt0 :=
  C7_resolve_tomorrow.1 "next week" dt0 dt0 rfl


/-- C1: with no status filter and no show-all override, the list
command returns only pending and in-progress tasks (the spec scenario
included), whereas the search filter with a free-text query, no status
filter and no overdue flag is insensitive to a task's status, so
completed and cancelled tasks match like any others. -/
theorem C1_default_visibility (tasks : List Task) (lsp : ListSpec)
    (h1 : lsp.status = none) (h2 : lsp.allTasks = false)
    (sp : SearchSpec) (now : DateTime)
    (_h3 : sp.query.isSome = true) (h4 : sp.status = none) (h5 : sp.overdue = false) :
    (∀ t ∈ list_tasks tasks lsp, t.status = .pending ∨ t.status = .inProgress) ∧
    (∀ t st, searchFilter sp now t = searchFilter sp now { t with status := st }) ∧
    list_tasks [c1TaskOne, c1TaskTwo] {} = [c1TaskOne] := by
  refine ⟨?_, ?_, by decide⟩
  · intro t ht
    have hf := (mem_list_tasks ht).2
    unfold listFilter at hf
    rw [h1, h2] at hf
    simp at hf
    exact hf.1.1.1
  · intro t st
    unfold searchFilter
    rw [h4, h5]
    rfl

/-- C1 (witness): the theorem at the spec scenario's two tasks and a
search for "report". -/
theorem C1_witness :
    (∀ t ∈ list_tasks [c1TaskOne, c1TaskTwo] {},
      t.status = .pending ∨ t.status = .inProgress) ∧
    (∀ t st, searchFilter { query := some "report" } dt0 t =
      searchFilter { query := some "report" } dt0 { t with status := st }) ∧
    list_tasks [c1TaskOne, c1TaskTwo] {} = [c1TaskOne] :=
  C1_default_visibility [c1TaskOne, c1TaskTwo] {} rfl rfl
    { query := some "report" } dt0 rfl rfl rfl

/-- C2 (counterexample): with both a category filter and the
no-category flag supplied, the search returns the task that has the
category "Work": the category filter wins, not the no-category flag. -/
theorem C2_counterexample :
    search_tasks [c2Work, c2Uncat]
        { category := some "Work", noCategory := true } dt0 = [c2Work] ∧
    c2Work.categoryName = some "Work" :=
  ⟨by decide, rfl⟩

/-- C2 (amended): when both a category name filter and the no-category
flag are supplied the query does not raise, and the category filter
takes precedence: the no-category flag has no effect and every result
carries the filtered category. -/
theorem C2_amended (tasks : List Task) (now : DateTime) (sp : SearchSpec)
    (c : String) (hc : sp.category = some c) :
    (∀ b t, searchFilter sp now t = searchFilter { sp with noCategory := b } now t) ∧
    (∀ t ∈ search_tasks tasks sp now, t.categoryName = some c) := by
  constructor
  · intro b t
    unfold searchFilter
    dsimp only
    rw [hc]
  · intro t ht
    have hf := (mem_search_tasks ht).2
    unfold searchFilter at hf
    rw [hc] at hf
    simp only [Bool.and_eq_true, beq_iff_eq] at hf
    exact hf.1.1.1.1.1.1.1.2


/-- C2 (witness): the amended claim at the contradictory filter pair. -/
theorem C2_witness :
    (∀ b t, searchFilter { category := some "Work", noCategory := true } dt0 t =
      searchFilter { ({ category := some "Work", noCategory := true } : SearchSpec) with
        noCategory := b } dt0 t) ∧
    (∀ t ∈ search_tasks [c2Work, c2Uncat]
        { category := some "Work", noCategory := true } dt0,
      t.categoryName = some "Work") :=
  C2_amended [c2Work, c2Uncat] dt0 { category := some "Work", noCategory := true }
    "Work" rfl

/-- C9 (counterexample): the state with status pending and a set
completion timestamp is reachable by create, complete at time 5, then
update the status back to pending: `completed_at` is set while the
status is not completed, refuting the if-and-only-if invariant. -/
theorem C9_counterexample :
    Reachable ⟨.pending, some 5⟩ ∧
    (⟨.pending, some 5⟩ : TaskState).completedAt.isSome = true ∧
    (⟨.pending, some 5⟩ : TaskState).status ≠ .completed := by
  refine ⟨?_, rfl, by decide⟩
  have h1 : Reachable (completeOp ⟨.pending, none⟩ 5) :=
    Reachable.complete _ 5 Reachable.create
  have h2 : Reachable (updateStatusOp (completeOp ⟨.pending, none⟩ 5) "pending" 6) :=
    Reachable.update _ "pending" 6 h1
  exact h2

/-- C9 (amended): one direction of the invariant holds on every
reachable state: whenever the status is completed, `completed_at` is
set.  (The converse fails, see the counterexample.) -/
theorem C9_amended (s : TaskState) (h : Reachable s) :
    s.status = .completed → s.completedAt.isSome = true := by
  induction h with
  | create => intro hc; exact absurd hc (by decide)
  | update s raw t hr ih =>
    intro hst
    unfold updateStatusOp at hst ⊢
    by_cases hc : parse_status raw = .completed ∧ s.completedAt = none
    · rw [if_pos hc]
      rfl
    · rw [if_neg hc] at hst ⊢
      dsimp only at hst ⊢
      push_neg at hc
      cases hca : s.completedAt with
      | none => exact absurd hca (hc hst)
      | some v => rfl
  | complete s t hr ih =>
    intro hst
    unfold completeOp at hst ⊢
    by_cases hc : s.status = .completed
    · rw [if_pos hc] at hst ⊢
      exact ih hst
    · rw [if_neg hc] at hst ⊢
      rfl
  | markCompleted s t hr ih => intro _; rfl
  | cancel s hr ih =>
    intro hst
    exact absurd hst (by simp [markCancelledOp])

/-- C9 (witness): the amended claim at the state reached by completing
a fresh task at time 5. -/
theorem C9_witness :
    (⟨.completed, some 5⟩ : TaskState).completedAt.isSome = true :=
  C9_amended ⟨.completed, some 5⟩ (Reachable.complete _ 5 Reachable.create) rfl

/-- C10 (counterexample): the same search through the agent tool and
through the CLI disagrees as soon as a filter beyond free text is
supplied: with a status filter for completed, the CLI returns only the
completed task while the agent tool returns both tasks. -/
theorem C10_counterexample :
    lc_search_tasks [c10Pending, c10Completed] none (some "completed")
        none none none none none none none false 50 ≠
      search_tasks [c10Pending, c10Completed] { status := some "completed" } dt0 := by
  decide

/-- C10 (amended): the agent-tool search honors only the free-text
query and the limit; when the FilterSpec supplies nothing else (all
other filters unset, default sort), the two surfaces agree, and every
other filter field affects only the CLI path. -/
theorem C10_amended (tasks : List Task) (q : Option String) (limit : Nat)
    (now : DateTime) (sp : SearchSpec)
    (h1 : sp.query = q) (h2 : sp.status = none) (h3 : sp.category = none)
    (h4 : sp.tag = none) (h5 : sp.priority = none) (h6 : sp.dueBefore = none)
    (h7 : sp.dueAfter = none) (h8 : sp.createdBefore = none)
    (h9 : sp.createdAfter = none) (h10 : sp.overdue = false)
    (h11 : sp.noCategory = false) (h12 : sp.noTags = false)
    (h13 : sp.limit = limit) (h14 : sp.sortBy = "created") (h15 : sp.reverse = false) :
    lc_search_tasks tasks q none none none none none none none none false limit =
      search_tasks tasks sp now := by
  unfold lc_search_tasks search_tasks
  rw [h13, h14, h15]
  have hk : sortKeyOf "created" = .created := rfl
  rw [hk]
  refine congrArg (fun l => (List.insertionSort (orderRel .created false) l).take limit)
    (List.filter_congr ?_)
  intro t _
  unfold searchFilter
  rw [h1, h2, h3, h4, h5, h6, h7, h8, h9, h10, h11, h12]
  cases q <;> simp

/-- C10 (witness): with no filters at all beyond the limit, the agent
tool and the CLI search return the same ordered results. -/
theorem C10_witness :
    lc_search_tasks [c10Pending, c10Completed] none none none none none
        none none none none false 50 =
      search_tasks [c10Pending, c10Completed] {} dt0 :=
  C10_amended [c10Pending, c10Completed] none 50 dt0 {}
    rfl rfl rfl rfl rfl rfl rfl rfl rfl rfl rfl rfl rfl rfl rfl


/-- C8 (counterexample): with the due-date sort in the reversed
(ascending) direction, the task with NULL due date comes first, not
last: NULL sorts after non-null only in the default descending
direction, not regardless of direction. -/
theorem C8_counterexample :
    search_tasks [c8WithDue, c8NoDue] { sortBy := "due", reverse := true } dt0 =
      [c8NoDue, c8WithDue] ∧
    c8NoDue.dueDate = none ∧ c8WithDue.dueDate ≠ none := by
  refine ⟨by decide, rfl, by decide⟩

/-- C8 (amended): every search result is sorted by the emitted row
order of the selected column and direction.  The order among tasks that
compare equal on the sort key is not part of the claim: the emitted SQL
has no tie-break column and SQLite leaves equal-key order undefined.
With the due-date key, tasks with NULL due date sort after all non-null
ones only in the default descending direction (in the reversed,
ascending direction they sort first, see the counterexample). -/
theorem C8_amended (tasks : List Task) (sp : SearchSpec) (now : DateTime) :
    ((search_tasks tasks sp now).Pairwise
      (orderRel (sortKeyOf sp.sortBy) sp.reverse)) ∧
    (sp.sortBy = "due" → sp.reverse = false →
      (search_tasks tasks sp now).Pairwise fun a b =>
        a.dueDate = none → b.dueDate = none) := by
  have h1 := sorted_search_order (sortKeyOf sp.sortBy) sp.reverse
    (tasks.filter (searchFilter sp now))
  have hmain : (search_tasks tasks sp now).Pairwise
      (orderRel (sortKeyOf sp.sortBy) sp.reverse) :=
    List.Pairwise.sublist (List.take_sublist sp.limit _) h1
  refine ⟨hmain, ?_⟩
  intro hdue hrev
  refine hmain.imp ?_
  intro a b h hanone
  rw [hdue, hrev] at h
  have hk : sortKeyOf "due" = .due := rfl
  rw [hk] at h
  unfold orderRel rowLe keyLe at h
  simp only [Bool.false_eq_true, if_false, decide_eq_true_eq] at h
  rw [(optKey_eq_zero _).mpr hanone] at h
  exact (optKey_eq_zero _).mp (Nat.le_zero.mp h)

end Todo
